import Mathlib

/-!
Verification of the image-normalization service (`server.js`, route
`POST /api/process`) against its specification.

The embedding models, from the source:
* the process-wide constants `TARGET_WIDTH`, `TARGET_HEIGHT`, `MAX_FILE_SIZE`;
* the fit-mode decision (`useCover`, lines 139-158): the aspect-ratio
  difference threshold of `0.1` applied to `metadata.width / metadata.height`;
* the kept-original bypass (lines 146-153);
* the size-constrained quality search (lines 162-229): the initial encode at
  quality 95, the reducing loop stepping the quality down by 5 while the
  encoded length exceeds `MAX_FILE_SIZE` and the quality exceeds 10, and the
  final aggressive encode at quality 10 with forced 4:2:0 chroma subsampling;
* the batch loop with its per-item catch block and the archive appends
  (lines 116-268);
* the empty-upload guard (lines 79-82);
* the `file_completed` progress payload (lines 243-254).

The external JPEG codec (the sharp pipeline
`resize(..).sharpen().jpeg(..)` followed by `toBuffer()`) is an abstract
parameter of type `Enc`: a function of the source buffer, the resize
options, the integer quality and the chroma-subsampling override that
either returns an encoded byte buffer or throws (returns `.error`).
Buffers are byte lists; `length` is the byte length the code compares
against `MAX_FILE_SIZE`.
-/

namespace CompressNCrop

/-- Constant `TARGET_WIDTH = 1260` (server.js line 95). -/
def TARGET_WIDTH : Int := 1260

/-- Constant `TARGET_HEIGHT = 1726` (server.js line 96). -/
def TARGET_HEIGHT : Int := 1726

/-- Constant `MAX_FILE_SIZE = 500000` bytes (server.js line 97). -/
def MAX_FILE_SIZE : Nat := 500000

/-- The two fit modes the code can pass to `sharp().resize` (line 158):
`useCover ? 'cover' : 'contain'`. -/
inductive FitMode
  | cover
  | contain
deriving DecidableEq, Repr

/-- The options object passed to `sharp().resize` (lines 164-169):
the fit mode, the `position` field (`'center'` under cover, `undefined`
under contain) and the background color `{r:255, g:255, b:255, alpha:1}`. -/
structure ResizeOptions where
  fit : FitMode
  position : Option String
  background : Nat × Nat × Nat × Nat
deriving DecidableEq, Repr

/-- `targetAspectRatio = TARGET_WIDTH / TARGET_HEIGHT` (line 140),
modelled exactly over the rationals. -/
def targetAspect : ℚ := 1260 / 1726

/-- The cover-versus-contain test `aspectRatioDiff < 0.1` (lines 139-157),
where `sourceAspectRatio = metadata.width / metadata.height` is a JS float64
division. When the probed height is `0` the JS quotient is `Infinity`,
`-Infinity` or `NaN`, and in each case the `< 0.1` comparison is `false`;
for a nonzero height the real-valued quotient is modelled exactly over `ℚ`. -/
def useCover (w h : Int) : Bool :=
  if h = 0 then false
  else if |(w : ℚ) / (h : ℚ) - targetAspect| < 1 / 10 then true else false

/-- `fitMode = useCover ? 'cover' : 'contain'` (line 158). -/
def fitModeFor (w h : Int) : FitMode :=
  if useCover w h then FitMode.cover else FitMode.contain

/-- The resize options built at lines 164-169 and reused verbatim at
lines 190-195 and 211-216. -/
def planFor (w h : Int) : ResizeOptions :=
  { fit := fitModeFor w h
  , position := if useCover w h then some "center" else none
  , background := (255, 255, 255, 1) }

/-- One uploaded file: multer memory storage gives `originalname`, the byte
`buffer` and `size` (the buffer byte length); the sharp metadata probe of
line 138 gives `width` and `height`, carried here as the probed values. -/
structure SourceImage where
  name : String
  buffer : List Nat
  width : Int
  height : Int
deriving DecidableEq, Repr

/-- The abstract JPEG encoder: the sharp pipeline
`sharp(buffer).resize(w, h, opts).sharpen().jpeg({quality, chroma?, mozjpeg:true})`
followed by `await toBuffer()`. Arguments: source buffer, resize options,
quality, and whether `chromaSubsampling: '4:2:0'` is forced (it is passed
only in the aggressive fallback encode, lines 218-222). A thrown codec
error is an `.error`. -/
def Enc : Type := List Nat → ResizeOptions → Nat → Bool → Except String (List Nat)

/-- `isAlreadyCorrectSize` (line 147):
`metadata.width === TARGET_WIDTH && metadata.height === TARGET_HEIGHT`. -/
def isAlreadyCorrectSize (img : SourceImage) : Bool :=
  img.width == TARGET_WIDTH && img.height == TARGET_HEIGHT

/-- `isUnderSizeLimit` (line 148): `file.size <= MAX_FILE_SIZE`, where the
multer in-memory `size` is the buffer byte length. -/
def isUnderSizeLimit (img : SourceImage) : Bool :=
  decide (img.buffer.length ≤ MAX_FILE_SIZE)

/-- The observable per-item state when processing ends (lines 133-135 and
225-241): the final buffer, the final value of the `quality` variable, the
final value of the `compressionAttempts` counter, the number of
`toBuffer()` encoder invocations actually performed, whether the aggressive
fallback encode of lines 207-226 ran, and whether the original buffer was
reused verbatim (lines 150-153). -/
structure ItemResult where
  buffer : List Nat
  quality : Nat
  compressionAttempts : Nat
  encodeCalls : Nat
  usedFallback : Bool
  keptOriginal : Bool
deriving DecidableEq, Repr

/-- The reducing loop (lines 186-204):
`while (processedImage.length > MAX_FILE_SIZE && quality > 10) { quality -= 5;
re-encode; compressionAttempts++ }`. Returns the buffer, the quality, the
`compressionAttempts` counter and the encoder-invocation count at exit, or
the first thrown codec error. -/
def reduceLoop (enc : Enc) (src : List Nat) (opts : ResizeOptions)
    (processed : List Nat) (quality attempts calls : Nat) :
    Except String (List Nat × Nat × Nat × Nat) :=
  if h : MAX_FILE_SIZE < processed.length ∧ 10 < quality then
    match enc src opts (quality - 5) false with
    | .error e => .error e
    | .ok buf => reduceLoop enc src opts buf (quality - 5) (attempts + 1) (calls + 1)
  else .ok (processed, quality, attempts, calls)
termination_by quality
decreasing_by omega

/-- Per-image processing (lines 133-230): start at quality 95; reuse the
original buffer when it already has the target dimensions and is within the
size limit; otherwise encode once, run the reducing loop if the result is
over `MAX_FILE_SIZE`, and if it is still over the limit perform the one
aggressive encode at quality 10 with forced chroma subsampling, accepted
unconditionally and setting `quality = 10`. -/
def processImage (enc : Enc) (img : SourceImage) : Except String ItemResult :=
  if isAlreadyCorrectSize img && isUnderSizeLimit img then
    .ok ⟨img.buffer, 95, 0, 0, false, true⟩
  else
    match enc img.buffer (planFor img.width img.height) 95 false with
    | .error e => .error e
    | .ok buf0 =>
      if MAX_FILE_SIZE < buf0.length then
        match reduceLoop enc img.buffer (planFor img.width img.height) buf0 95 1 1 with
        | .error e => .error e
        | .ok (buf, q, att, calls) =>
          if MAX_FILE_SIZE < buf.length then
            match enc img.buffer (planFor img.width img.height) 10 true with
            | .error e => .error e
            | .ok fb => .ok ⟨fb, 10, att, calls + 1, true, false⟩
          else .ok ⟨buf, q, att, calls, false, false⟩
      else .ok ⟨buf0, 95, 1, 1, false, false⟩

/-- The geometric strategy the code actually takes per image: either the
kept-original bypass of lines 150-153 or a resize at the fit mode of
line 158. The code has no other branch. -/
inductive Strategy
  | keptOriginal
  | resize (fit : FitMode)
deriving DecidableEq, Repr

/-- The strategy selected for an image (lines 146-158). -/
def strategyFor (img : SourceImage) : Strategy :=
  if isAlreadyCorrectSize img && isUnderSizeLimit img then Strategy.keptOriginal
  else Strategy.resize (fitModeFor img.width img.height)

/-- The pixel dimensions of the emitted image. On the kept-original path the
original is reused. Otherwise `sharp().resize(TARGET_WIDTH, TARGET_HEIGHT)`
with fit `cover` or `contain` and an explicit background produces exactly the
requested dimensions; no `withoutEnlargement` flag is passed, so sources
smaller than the target are scaled up to it. -/
def outputDims (img : SourceImage) : Int × Int :=
  if isAlreadyCorrectSize img && isUnderSizeLimit img then (img.width, img.height)
  else (TARGET_WIDTH, TARGET_HEIGHT)

/-- Per-item outcome as observed by the batch loop: either the final buffer
handed to `archive.append`, or the caught error message reported through the
file_error progress event. -/
inductive Outcome
  | ok (buffer : List Nat)
  | fileError (msg : String)
deriving DecidableEq, Repr

/-- Whether an outcome is a success. -/
def Outcome.isOk : Outcome → Bool
  | Outcome.ok _ => true
  | Outcome.fileError _ => false

/-- The per-item loop of the route (lines 116-268): each file is processed
inside a try block; on success the buffer is appended to the archive
(line 233, entry named after the original basename with a `.jpg` extension;
the name component is carried as the source name here) and a file_completed
event is sent; a thrown error is caught at the item boundary (line 256),
reported as a file_error event (lines 259-266), and the loop continues with
the next file. `proc` is the whole fallible per-item body (metadata probe,
resize pipeline and encodes). Returns the per-item outcomes and the archive
entries, both accumulated in input order. -/
def runBatch (proc : SourceImage → Except String (List Nat)) :
    List SourceImage → List (String × Outcome) × List (String × List Nat)
  | [] => ([], [])
  | f :: fs =>
    match proc f with
    | Except.ok buf =>
      ((f.name, Outcome.ok buf) :: (runBatch proc fs).1,
        (f.name, buf) :: (runBatch proc fs).2)
    | Except.error e =>
      ((f.name, Outcome.fileError e) :: (runBatch proc fs).1,
        (runBatch proc fs).2)

/-- The route body (lines 79-104): when no files were uploaded the request
is rejected up front with the 400 error `No images uploaded`, before the
archiver is created and before any item is touched; otherwise the batch is
processed and the archive produced. -/
def apiProcess (proc : SourceImage → Except String (List Nat))
    (files : List SourceImage) :
    Except String (List (String × Outcome) × List (String × List Nat)) :=
  if files.length = 0 then Except.error "No images uploaded"
  else Except.ok (runBatch proc files)

/-- A JSON value carried by a progress-event field: a string, a
non-negative integer, or a numeric ratio (the JS float is modelled as the
exact rational; the code formats it with toFixed before sending). -/
inductive JVal
  | s (v : String)
  | n (v : Nat)
  | q (v : ℚ)
deriving DecidableEq

/-- The file_completed progress payload (lines 243-254), as the ordered
field list of the object literal passed to sendProgress. `pTime` is the
wall-clock duration of the item, a parameter here. -/
def fileCompletedPayload (filename : String)
    (current total originalSize pTime : Nat) (r : ItemResult) :
    List (String × JVal) :=
  [("type", JVal.s "file_completed"),
    ("message", JVal.s ("Completed: " ++ filename)),
    ("current", JVal.n current),
    ("total", JVal.n total),
    ("filename", JVal.s filename),
    ("originalSize", JVal.n originalSize),
    ("finalSize", JVal.n r.buffer.length),
    ("quality", JVal.n r.quality),
    ("compressionRatio",
      JVal.q ((1 - (r.buffer.length : ℚ) / (originalSize : ℚ)) * 100)),
    ("processingTime", JVal.n pTime)]

/-- A concrete encoder that always succeeds with the one-byte buffer,
used to instantiate the abstract codec in witnesses. -/
def encW : Enc := fun _ _ _ _ => Except.ok [0]

/-- A concrete 5x5 upload with a one-byte buffer. -/
def imgSmallBuf : SourceImage := ⟨"photo", [0], 5, 5⟩

/-- The same pixel data and geometry as `imgSmallBuf` under another name. -/
def imgRenamed : SourceImage := ⟨"other", [0], 5, 5⟩

/-- The result `processImage encW imgSmallBuf` evaluates to. -/
def resultW : ItemResult := ⟨[0], 95, 1, 1, false, false⟩

/-- A concrete upload already at the 1260x1726 target dimensions. -/
def imgAtTarget : SourceImage := ⟨"exact", [7], 1260, 1726⟩

/-- A concrete 100x100 upload: strictly smaller than the target in both
dimensions. -/
def smallSquare : SourceImage := ⟨"small", [0], 100, 100⟩

/-- A concrete 2000x2000 upload: larger than the target in both dimensions,
with an aspect ratio far from the target's. -/
def imgSquare2000 : SourceImage := ⟨"big", [0], 2000, 2000⟩

/-- A concrete upload whose metadata probe reports a zero height. -/
def zeroHeight : SourceImage := ⟨"corrupt", [1, 2, 3], 100, 0⟩

/-- Exit facts of the reducing loop: at exit the buffer fits or the quality
has reached the floor; each iteration trades 5 quality points for one
counted attempt; the attempt counter and the encoder-invocation counter
advance in lockstep; and from a quality that is a multiple of 5 and at
least 10, the exit quality is again a multiple of 5 and at least 10. -/
theorem reduceLoop_ok (enc : Enc) (src : List Nat) (opts : ResizeOptions) :
    ∀ (quality : Nat) (processed : List Nat) (attempts calls : Nat)
      (buf : List Nat) (q a c : Nat),
      reduceLoop enc src opts processed quality attempts calls = .ok (buf, q, a, c) →
      (buf.length ≤ MAX_FILE_SIZE ∨ q ≤ 10) ∧
      5 * a + q = 5 * attempts + quality ∧
      a + calls = c + attempts ∧
      (10 ≤ quality → quality % 5 = 0 → 10 ≤ q ∧ q % 5 = 0) := by
  intro quality
  induction quality using Nat.strong_induction_on with
  | _ quality ih =>
    intro processed attempts calls buf q a c h
    rw [reduceLoop] at h
    split at h
    · rename_i hcond
      cases henc : enc src opts (quality - 5) false with
      | error e => rw [henc] at h; exact absurd h (by simp)
      | ok b =>
        rw [henc] at h
        have hrec := ih (quality - 5) (by omega) b (attempts + 1) (calls + 1) buf q a c h
        refine ⟨hrec.1, by omega, by omega, ?_⟩
        intro h10 h5
        exact hrec.2.2.2 (by omega) (by omega)
    · rename_i hcond
      injection h with h
      injection h with h1 h2
      injection h2 with h2 h3
      injection h3 with h3 h4
      subst h1; subst h2; subst h3; subst h4
      exact ⟨by omega, by omega, by omega, fun ha hb => ⟨by omega, hb⟩⟩

/-- With an encoder that always succeeds, the reducing loop always exits
normally. -/
theorem reduceLoop_total_ok (b : List Nat) (src : List Nat)
    (opts : ResizeOptions) :
    ∀ (quality : Nat) (processed : List Nat) (attempts calls : Nat), ∃ t,
      reduceLoop (fun _ _ _ _ => Except.ok b) src opts
        processed quality attempts calls = Except.ok t := by
  intro quality
  induction quality using Nat.strong_induction_on with
  | _ quality ih =>
    intro processed attempts calls
    rw [reduceLoop]
    split
    · rename_i hcond
      exact ih (quality - 5) (by omega) b (attempts + 1) (calls + 1)
    · exact ⟨_, rfl⟩

/-- Case analysis of a successful run of `processImage`: either the
kept-original bypass fired, or the search ended under the size cap without
the fallback, or the aggressive fallback encode produced the final buffer.
Counter relations and the attempt bound come along in each case. -/
theorem processImage_spec (enc : Enc) (img : SourceImage) (r : ItemResult)
    (h : processImage enc img = .ok r) :
    (r = ⟨img.buffer, 95, 0, 0, false, true⟩ ∧
        img.buffer.length ≤ MAX_FILE_SIZE) ∨
    (r.usedFallback = false ∧ r.keptOriginal = false ∧
        r.buffer.length ≤ MAX_FILE_SIZE ∧
        r.compressionAttempts = r.encodeCalls ∧ r.encodeCalls ≤ 18) ∨
    (r.usedFallback = true ∧ r.keptOriginal = false ∧ r.quality = 10 ∧
        enc img.buffer (planFor img.width img.height) 10 true =
          Except.ok r.buffer ∧
        r.compressionAttempts + 1 = r.encodeCalls ∧ r.encodeCalls ≤ 19) := by
  unfold processImage at h
  split at h
  · rename_i hkept
    left
    injection h with h
    refine ⟨h.symm, ?_⟩
    have h2 : isUnderSizeLimit img = true := by
      cases hu : isUnderSizeLimit img
      · rw [hu, Bool.and_false] at hkept; exact absurd hkept (by simp)
      · rfl
    simpa [isUnderSizeLimit] using h2
  · rename_i hkept
    split at h
    · exact absurd h (by simp)
    · rename_i buf0 henc
      split at h
      · rename_i hbig
        split at h
        · exact absurd h (by simp)
        · rename_i buf q att calls hloop
          have hspec := reduceLoop_ok enc img.buffer
            (planFor img.width img.height) 95 buf0 1 1 buf q att calls hloop
          have hq10 : 10 ≤ q := (hspec.2.2.2 (by norm_num) (by norm_num)).1
          have harith : 5 * att + q = 5 * 1 + 95 := hspec.2.1
          have hac : att + 1 = calls + 1 := hspec.2.2.1
          split at h
          · rename_i hbig2
            split at h
            · exact absurd h (by simp)
            · rename_i fb hfb
              injection h with h
              right; right
              subst h
              exact ⟨rfl, rfl, rfl, hfb, by dsimp only; omega,
                by dsimp only; omega⟩
          · rename_i hbig2
            injection h with h
            right; left
            subst h
            exact ⟨rfl, rfl, by dsimp only; omega, by dsimp only; omega,
              by dsimp only; omega⟩
      · rename_i hbig
        injection h with h
        right; left
        subst h
        exact ⟨rfl, rfl, by dsimp only; omega, rfl, by dsimp only; norm_num⟩

/-- The outcome list of a batch run is the input list mapped through the
per-item body, with thrown errors caught and tagged as file errors: no
failure aborts the loop. -/
theorem runBatch_fst (proc : SourceImage → Except String (List Nat))
    (files : List SourceImage) :
    (runBatch proc files).1 = files.map (fun f =>
      (f.name, match proc f with
        | Except.ok buf => Outcome.ok buf
        | Except.error e => Outcome.fileError e)) := by
  induction files with
  | nil => rfl
  | cons f fs ih => cases hp : proc f <;> simp [runBatch, hp, ih]

/-- C1: for every image that goes through the quality-search processing and
completes without error, the final encoded byte length is at most
`MAX_FILE_SIZE`, or else the final encode was the aggressive fallback at the
quality floor 10 with chroma subsampling 4:2:0 forced; a result is always
produced, never a failure for exceeding the size cap. -/
theorem processed_size_cap_or_aggressive_fallback (enc : Enc)
    (img : SourceImage) (r : ItemResult) (h : processImage enc img = .ok r) :
    r.buffer.length ≤ MAX_FILE_SIZE ∨
      (r.usedFallback = true ∧ r.quality = 10 ∧
        enc img.buffer (planFor img.width img.height) 10 true =
          Except.ok r.buffer) := by
  rcases processImage_spec enc img r h with
    ⟨hr, hlen⟩ | ⟨_, _, hlen, _⟩ | ⟨hf, _, hq, hemc, _⟩
  · left; rw [hr]; exact hlen
  · left; exact hlen
  · right; exact ⟨hf, hq, hemc⟩

/-- C1 witness: a concrete run on the 5x5 upload with the always-small
encoder. -/
theorem processed_size_cap_or_aggressive_fallback_witness :
    processImage encW imgSmallBuf = Except.ok resultW ∧
    (resultW.buffer.length ≤ MAX_FILE_SIZE ∨
      (resultW.usedFallback = true ∧ resultW.quality = 10 ∧
        encW imgSmallBuf.buffer
            (planFor imgSmallBuf.width imgSmallBuf.height) 10 true =
          Except.ok resultW.buffer)) :=
  ⟨rfl, processed_size_cap_or_aggressive_fallback encW imgSmallBuf resultW rfl⟩

/-- C2: the size-constrained search terminates (the embedded search is a
total function of the encoder results) and the total number of encodes per
image is at most `(95 - 10) / 5 + 2`: one initial encode, at most 17
reducing encodes, at most one fallback encode. -/
theorem encode_attempt_count_bounded (enc : Enc) (img : SourceImage)
    (r : ItemResult) (h : processImage enc img = .ok r) :
    r.encodeCalls ≤ (95 - 10) / 5 + 2 := by
  have h19 : (95 - 10) / 5 + 2 = 19 := by norm_num
  rw [h19]
  rcases processImage_spec enc img r h with
    ⟨hr, _⟩ | ⟨_, _, _, _, hc⟩ | ⟨_, _, _, _, _, hc⟩
  · subst hr; dsimp only; omega
  · omega
  · omega

/-- C2 witness: the concrete run of the C1 witness performs one encode,
within the bound. -/
theorem encode_attempt_count_bounded_witness :
    processImage encW imgSmallBuf = Except.ok resultW ∧
    resultW.encodeCalls ≤ (95 - 10) / 5 + 2 :=
  ⟨rfl, encode_attempt_count_bounded encW imgSmallBuf resultW rfl⟩

/-- C3: an upload already at exactly the target dimensions and within the
size cap is passed through byte-for-byte: the result is the original buffer
with zero encodes, whatever the encoder does. -/
theorem kept_original_bypasses_encoder (enc : Enc) (img : SourceImage)
    (h1 : img.width = TARGET_WIDTH) (h2 : img.height = TARGET_HEIGHT)
    (h3 : img.buffer.length ≤ MAX_FILE_SIZE) :
    processImage enc img = Except.ok ⟨img.buffer, 95, 0, 0, false, true⟩ := by
  have hc : (isAlreadyCorrectSize img && isUnderSizeLimit img) = true := by
    simp [isAlreadyCorrectSize, isUnderSizeLimit, h1, h2, h3]
  simp [processImage, hc]

/-- C3 witness: the concrete 1260x1726 upload is reused verbatim. -/
theorem kept_original_bypasses_encoder_witness :
    imgAtTarget.width = TARGET_WIDTH ∧ imgAtTarget.height = TARGET_HEIGHT ∧
    imgAtTarget.buffer.length ≤ MAX_FILE_SIZE ∧
    processImage encW imgAtTarget =
      Except.ok ⟨imgAtTarget.buffer, 95, 0, 0, false, true⟩ :=
  ⟨rfl, rfl, by decide,
    kept_original_bypasses_encoder encW imgAtTarget rfl rfl (by decide)⟩

/-- C4 counterexample: the 100x100 upload is strictly smaller than the
1260x1726 target in both dimensions, yet the selected strategy is a contain
resize (the code has no crop-to-aspect branch) and the output width 1260
exceeds the source width 100: the image is upscaled. -/
theorem small_source_not_crop_to_aspect_cx :
    strategyFor smallSquare = Strategy.resize FitMode.contain ∧
    smallSquare.width < (outputDims smallSquare).1 := by
  have hcov : useCover 100 100 = false := by
    simp [useCover, targetAspect]
    rw [abs_of_nonneg (by norm_num)]
    norm_num
  have hsz : isAlreadyCorrectSize smallSquare = false := rfl
  constructor
  · unfold strategyFor
    rw [hsz, Bool.false_and, if_neg (by simp)]
    show Strategy.resize (fitModeFor 100 100) = _
    unfold fitModeFor
    rw [hcov, if_neg (by simp)]
  · unfold outputDims
    rw [hsz, Bool.false_and, if_neg (by simp)]
    show (100 : Int) < (TARGET_WIDTH, TARGET_HEIGHT).1
    norm_num [TARGET_WIDTH]

/-- C4 amended: an upload strictly smaller than the target in some dimension
is neither kept as original nor handled by a crop-to-aspect branch: the
strategy is the aspect-difference resize, and the output is exactly the
1260x1726 target canvas, which upscales the source. -/
theorem undersized_source_resized_to_target (img : SourceImage)
    (h : img.width < TARGET_WIDTH ∨ img.height < TARGET_HEIGHT) :
    strategyFor img = Strategy.resize (fitModeFor img.width img.height) ∧
    outputDims img = (TARGET_WIDTH, TARGET_HEIGHT) := by
  have hc : (isAlreadyCorrectSize img && isUnderSizeLimit img) = false := by
    rcases h with h | h
    · have hne : img.width ≠ TARGET_WIDTH := ne_of_lt h
      simp [isAlreadyCorrectSize, hne]
    · have hne : img.height ≠ TARGET_HEIGHT := ne_of_lt h
      simp [isAlreadyCorrectSize, hne]
  simp [strategyFor, outputDims, hc]

/-- C4 amended witness: the concrete 100x100 upload. -/
theorem undersized_source_resized_to_target_witness :
    (smallSquare.width < TARGET_WIDTH ∨ smallSquare.height < TARGET_HEIGHT) ∧
    (strategyFor smallSquare =
        Strategy.resize (fitModeFor smallSquare.width smallSquare.height) ∧
      outputDims smallSquare = (TARGET_WIDTH, TARGET_HEIGHT)) := by
  have h : smallSquare.width < TARGET_WIDTH ∨
      smallSquare.height < TARGET_HEIGHT := by
    left; norm_num [smallSquare, TARGET_WIDTH]
  exact ⟨h, undersized_source_resized_to_target smallSquare h⟩

/-- C5: for every image not kept as original, the fit mode is cover exactly
when the aspect-ratio difference is below the 0.10 threshold and contain
otherwise, the resize background is white, and in both cases the output is
exactly the 1260x1726 target canvas. -/
theorem cover_contain_threshold (img : SourceImage)
    (h : strategyFor img ≠ Strategy.keptOriginal) :
    ((planFor img.width img.height).fit = FitMode.cover ↔
      |(img.width : ℚ) / (img.height : ℚ) - 1260 / 1726| < 1 / 10) ∧
    (planFor img.width img.height).background = (255, 255, 255, 1) ∧
    outputDims img = (TARGET_WIDTH, TARGET_HEIGHT) := by
  refine ⟨?_, rfl, ?_⟩
  · by_cases hh : img.height = 0
    · have hcov : useCover img.width img.height = false := by
        unfold useCover
        rw [if_pos hh]
      have h0 : ((img.height : ℚ)) = 0 := by rw [hh]; norm_num
      rw [h0, div_zero, zero_sub, abs_neg,
        abs_of_nonneg (by norm_num : (0 : ℚ) ≤ 1260 / 1726)]
      simp [planFor, fitModeFor, hcov]
      norm_num
    · by_cases hq :
        |(img.width : ℚ) / (img.height : ℚ) - targetAspect| < 1 / 10
      · have hcov : useCover img.width img.height = true := by
          unfold useCover
          rw [if_neg hh, if_pos hq]
        simp only [planFor, fitModeFor, hcov, if_true]
        unfold targetAspect at hq
        simpa using hq
      · have hcov : useCover img.width img.height = false := by
          unfold useCover
          rw [if_neg hh, if_neg hq]
        simp only [planFor, fitModeFor, hcov, if_false]
        unfold targetAspect at hq
        simpa using hq
  · cases hcond : (isAlreadyCorrectSize img && isUnderSizeLimit img) with
    | true => exact absurd (by simp [strategyFor, hcond]) h
    | false => simp [outputDims, hcond]

/-- C5 witness: the concrete 2000x2000 upload (aspect difference about 0.27,
above the threshold). -/
theorem cover_contain_threshold_witness :
    strategyFor imgSquare2000 ≠ Strategy.keptOriginal ∧
    (((planFor imgSquare2000.width imgSquare2000.height).fit = FitMode.cover ↔
      |(imgSquare2000.width : ℚ) / (imgSquare2000.height : ℚ) - 1260 / 1726| <
        1 / 10) ∧
    (planFor imgSquare2000.width imgSquare2000.height).background =
      (255, 255, 255, 1) ∧
    outputDims imgSquare2000 = (TARGET_WIDTH, TARGET_HEIGHT)) := by
  have h : strategyFor imgSquare2000 ≠ Strategy.keptOriginal := by
    simp [strategyFor, imgSquare2000, isAlreadyCorrectSize, TARGET_WIDTH]
  exact ⟨h, cover_contain_threshold imgSquare2000 h⟩

/-- C6: a failure while processing one item is caught at the item boundary
and tagged as a file error while the loop continues (every input file yields
exactly one outcome, in input order); the archive receives exactly the
buffers of the non-error outcomes, in the same order, so the entry count
equals the number of non-error results. -/
theorem batch_error_isolation_and_archive_order
    (proc : SourceImage → Except String (List Nat))
    (files : List SourceImage) :
    (runBatch proc files).1 = files.map (fun f =>
      (f.name, match proc f with
        | Except.ok buf => Outcome.ok buf
        | Except.error e => Outcome.fileError e)) ∧
    (runBatch proc files).2 = (runBatch proc files).1.filterMap (fun p =>
      match p.2 with
      | Outcome.ok buf => some (p.1, buf)
      | Outcome.fileError _ => none) ∧
    (runBatch proc files).2.length =
      ((runBatch proc files).1.filter (fun p => p.2.isOk)).length := by
  refine ⟨runBatch_fst proc files, ?_, ?_⟩
  · induction files with
    | nil => rfl
    | cons f fs ih => cases hp : proc f <;> simp [runBatch, hp, ih]
  · induction files with
    | nil => rfl
    | cons f fs ih => cases hp : proc f <;> simp [runBatch, hp, ih, Outcome.isOk]

/-- C7: the empty batch is rejected up front with the `No images uploaded`
precondition error: no item is processed and no archive is produced. -/
theorem empty_batch_rejected (proc : SourceImage → Except String (List Nat)) :
    apiProcess proc [] = Except.error "No images uploaded" := rfl

/-- C8: per-image processing is deterministic: its result depends only on
the pixel buffer and the probed dimensions (for a fixed encoder), so two
runs on the same input produce identical output bytes. -/
theorem pipeline_deterministic (enc : Enc) (i1 i2 : SourceImage)
    (hb : i1.buffer = i2.buffer) (hw : i1.width = i2.width)
    (hh : i1.height = i2.height) :
    processImage enc i1 = processImage enc i2 := by
  obtain ⟨n1, b1, w1, d1⟩ := i1
  obtain ⟨n2, b2, w2, d2⟩ := i2
  dsimp only at hb hw hh
  subst hb; subst hw; subst hh
  rfl

/-- C8 witness: the same pixel data under two different filenames. -/
theorem pipeline_deterministic_witness :
    imgSmallBuf.buffer = imgRenamed.buffer ∧
    imgSmallBuf.width = imgRenamed.width ∧
    imgSmallBuf.height = imgRenamed.height ∧
    processImage encW imgSmallBuf = processImage encW imgRenamed :=
  ⟨rfl, rfl, rfl, pipeline_deterministic encW imgSmallBuf imgRenamed rfl rfl rfl⟩

/-- C9 counterexample: a probe reporting height 0 is not rejected: the code
has no geometry validation, the JS aspect division yields Infinity rather
than throwing, and with a functioning encoder the item completes
successfully instead of failing with an InvalidGeometryError. -/
theorem zero_height_processed_without_geometry_error :
    processImage (fun _ _ _ _ => Except.ok [0]) zeroHeight =
      Except.ok ⟨[0], 95, 1, 1, false, false⟩ := rfl

/-- C9 amended: a probed width or height of zero is not validated: the
aspect test is simply false (the code path throws nothing), the fit mode
falls through to contain, and processing continues into the encoder, so the
item succeeds whenever the encoder does; only errors thrown inside the
pipeline are caught as per-item errors. -/
theorem degenerate_dims_fall_through_to_contain (img : SourceImage)
    (b : List Nat) (h : img.width = 0 ∨ img.height = 0) :
    fitModeFor img.width img.height = FitMode.contain ∧
    ∃ r, processImage (fun _ _ _ _ => Except.ok b) img = Except.ok r := by
  constructor
  · have hcov : useCover img.width img.height = false := by
      by_cases hh : img.height = 0
      · unfold useCover
        rw [if_pos hh]
      · rcases h with h | h
        · have h0 : ((img.width : ℚ)) = 0 := by rw [h]; norm_num
          unfold useCover
          rw [if_neg hh, if_neg]
          rw [h0, zero_div, zero_sub, abs_neg,
            abs_of_nonneg (by norm_num [targetAspect])]
          norm_num [targetAspect]
        · exact absurd h hh
    simp [fitModeFor, hcov]
  · by_cases hkept : (isAlreadyCorrectSize img && isUnderSizeLimit img) = true
    · exact ⟨⟨img.buffer, 95, 0, 0, false, true⟩, by simp [processImage, hkept]⟩
    · obtain ⟨t, ht⟩ := reduceLoop_total_ok b img.buffer
        (planFor img.width img.height) 95 b 1 1
      obtain ⟨buf, q, att, calls⟩ := t
      by_cases h1 : MAX_FILE_SIZE < b.length
      · by_cases h2 : MAX_FILE_SIZE < buf.length
        · exact ⟨⟨b, 10, att, calls + 1, true, false⟩,
            by simp [processImage, hkept, h1, ht, h2]⟩
        · exact ⟨⟨buf, q, att, calls, false, false⟩,
            by simp [processImage, hkept, h1, ht, h2]⟩
      · exact ⟨⟨b, 95, 1, 1, false, false⟩, by simp [processImage, hkept, h1]⟩

/-- C9 amended witness: the concrete zero-height upload. -/
theorem degenerate_dims_fall_through_witness :
    (zeroHeight.width = 0 ∨ zeroHeight.height = 0) ∧
    (fitModeFor zeroHeight.width zeroHeight.height = FitMode.contain ∧
      ∃ r, processImage (fun _ _ _ _ => Except.ok [0]) zeroHeight =
        Except.ok r) :=
  ⟨Or.inr rfl, degenerate_dims_fall_through_to_contain zeroHeight [0] (Or.inr rfl)⟩

/-- C10 counterexample: the file_completed payload (lines 243-254) carries
exactly these ten fields, so no attempt count is reported in that event at
all; the compressionAttempts counter appears only in the completion console
log of line 241. -/
theorem file_completed_carries_no_attempt_count :
    (fileCompletedPayload "photo.png" 1 1 100 5 resultW).map Prod.fst =
      ["type", "message", "current", "total", "filename", "originalSize",
        "finalSize", "quality", "compressionRatio", "processingTime"] := rfl

/-- C10 amended: the compressionAttempts counter, reported in the completion
console log rather than in the file_completed payload, counts only the
initial encode and the quality-reduction encodes — the aggressive fallback
encode does not increment it — and for kept-original items the counter is 0
and the quality the file_completed event reports is the initial 95 although
no encode occurred. -/
theorem fallback_encode_not_counted (enc : Enc) (img : SourceImage)
    (r : ItemResult) (h : processImage enc img = .ok r) :
    r.encodeCalls =
      r.compressionAttempts + (if r.usedFallback then 1 else 0) ∧
    (r.keptOriginal = true →
      r.compressionAttempts = 0 ∧ r.encodeCalls = 0 ∧ r.quality = 95) := by
  rcases processImage_spec enc img r h with
    ⟨hr, _⟩ | ⟨hf, hk, _, hac, _⟩ | ⟨hf, hk, _, _, hac, _⟩
  · subst hr
    exact ⟨by simp, fun _ => ⟨rfl, rfl, rfl⟩⟩
  · refine ⟨by simp [hf]; omega, fun hkk => absurd hkk (by simp [hk])⟩
  · refine ⟨by simp [hf]; omega, fun hkk => absurd hkk (by simp [hk])⟩

/-- C10 amended witness: the concrete run of the C1 witness, with one
counted encode and no fallback. -/
theorem fallback_encode_not_counted_witness :
    processImage encW imgSmallBuf = Except.ok resultW ∧
    (resultW.encodeCalls =
        resultW.compressionAttempts + (if resultW.usedFallback then 1 else 0) ∧
      (resultW.keptOriginal = true →
        resultW.compressionAttempts = 0 ∧ resultW.encodeCalls = 0 ∧
          resultW.quality = 95)) :=
  ⟨rfl, fallback_encode_not_counted encW imgSmallBuf resultW rfl⟩

end CompressNCrop
